import Mathlib

/-!
Shallow embedding of the Localify local music player's playback core
(`MusicPlayer/core/audio_player.py` and `MusicPlayer/core/audio_effects.py`).

Pure data is translated directly; the pygame mixer, the settings store and
the nondeterministic environment (device success/failure, reported
position, random shuffle index, equalizer output path) are made explicit:
each operation takes the environment values it reads and returns the new
controller state together with the list of device commands it issued.
-/

namespace Localify

/-- Mirror of `TrackMetadata` (`metadata_handler.py`), restricted to the
fields the playback controller reads.  Python floats are modelled as `ℚ`. -/
structure TrackMetadata where
  title : String
  artist : String
  album : String
  durationSeconds : ℚ
deriving DecidableEq, Repr

/-- Mirror of `TrackItem` (`folder_manager.py`).  As in the Python
dataclass, equality is field-wise (path *and* metadata and gain). -/
structure Track where
  path : String
  metadata : TrackMetadata
  normalizedGainDb : ℚ
deriving DecidableEq, Repr

/-- Mirror of the persisted `PlaybackState` dataclass (`settings.py`). -/
structure PlaybackState where
  volume : ℚ
  isMuted : Bool
  shuffleEnabled : Bool
  repeatMode : String
  crossfadeSeconds : ℚ
  normalizationEnabled : Bool
  eqPreset : String
deriving DecidableEq, Repr

/-- Device commands issued to `pygame.mixer.music` by the controller. -/
inductive Eff where
  | loadStream (path : String)
  | playStream (fadeMs : ℤ)
  | fadeOut (ms : ℤ)
  | stopMusic
  | pauseMusic
  | unpauseMusic
  | setVol
deriving DecidableEq, Repr

/-- The mutable state of `AudioPlayer`.  `trackPositions` models the
settings store's `track_positions` map (total, defaulting to `0`). -/
structure PlayerState where
  queue : List Track
  history : List Track
  currentIndex : ℤ
  currentTrack : Option Track
  currentOffset : ℚ
  activeAudioPath : Option String
  crossfadePending : Bool
  state : String
  mixerInit : Bool
  trackPositions : String → ℚ
  playback : PlaybackState

/-- Environment consumed by one `play_track` call: the path produced by
`EqualizerEngine.prepare_track`, whether the device load/play succeeds,
and the position `pygame.mixer.music.get_pos()` reports afterwards. -/
structure PlayEnv where
  playbackPath : String
  loadOk : Bool
  posMs : ℚ
deriving Repr

/-- Environment consumed by one `_poll` tick. -/
structure PollEnv where
  busy : Bool
  posMs : ℚ
  randIdx : ℕ
  penv : PlayEnv
deriving Repr

/-- Python's `int()` float-to-int conversion (truncation toward zero). -/
def pyInt (q : ℚ) : ℤ :=
  q.num.tdiv (q.den : ℤ)

/-- Total list indexing; Python indexing in the modelled code is only ever
in range, so the default track is never observable in the claims. -/
def nth (q : List Track) (i : ℕ) : Track :=
  q.getD i ⟨"", ⟨"", "", "", 0⟩, 0⟩

/-- Point update of the persisted position map
(`SettingsManager.remember_track_position`). -/
def setPos (f : String → ℚ) (k : String) (v : ℚ) : String → ℚ :=
  fun p => if p = k then v else f p

/-- `self._history.remove(track)` (ignoring a missing entry) followed by
`self._history.append(track)` on a `deque(maxlen=50)`: the earlier
occurrence is dropped, the track is appended, and if the deque would
exceed 50 entries the oldest (leftmost) entry is evicted. -/
def historyPush (h : List Track) (t : Track) : List Track :=
  let h2 := h.erase t ++ [t]
  h2.drop (h2.length - 50)

/-- `AudioPlayer._update_state`: records the new transport state and, when
a current track exists and the state is playing/paused, persists the
current position (`get_pos` clamped at 0). -/
def updateState (s : PlayerState) (st : String) (posMs : ℚ) : PlayerState :=
  let s1 := { s with state := st }
  match s1.currentTrack with
  | none => s1
  | some t =>
      if st = "playing" ∨ st = "paused" then
        { s1 with trackPositions :=
            setPos s1.trackPositions t.path (s1.currentOffset + max posMs 0 / 1000) }
      else s1

/-- The resume-position substitution at the top of `play_track`: a zero
(or negative) requested position is replaced by a positive persisted
offset, unless a restart is forced. -/
def resolveStart (positions : String → ℚ) (track : Track) (startPosition : ℚ)
    (forceRestart : Bool) : ℚ :=
  if startPosition ≤ 0 ∧ ¬forceRestart then
    let saved := positions track.path
    if saved > 0 then saved else startPosition
  else startPosition

/-- The queue bookkeeping of `play_track`: a track not yet queued is
appended and becomes current; otherwise the queue's existing (first)
occurrence becomes current. -/
def enqueueCurrent (s : PlayerState) (track : Track) : PlayerState :=
  if track ∈ s.queue then
    { s with currentIndex := (s.queue.indexOf track : ℤ) }
  else
    { s with queue := s.queue ++ [track],
             currentIndex := (s.queue.length : ℤ) }

/-- `AudioPlayer.play_track`.  Queue/index bookkeeping happens before the
`try` block; on device failure (`env.loadOk = false`) the transport state
becomes `"error"` and current track/offset/history stay untouched. -/
def playTrack (s : PlayerState) (track : Track) (startPosition : ℚ)
    (forceRestart : Bool) (env : PlayEnv) : PlayerState × List Eff :=
  let s0 := { s with mixerInit := true }
  let start := resolveStart s0.trackPositions track startPosition forceRestart
  let s1 := enqueueCurrent s0 track
  let s2 := { s1 with activeAudioPath := some env.playbackPath }
  let s3 :=
    if forceRestart then
      { s2 with trackPositions := setPos s2.trackPositions track.path 0 }
    else s2
  if env.loadOk then
    let fadeInMs := pyInt (max (s3.playback.crossfadeSeconds - 1/2) 0 * 1000)
    let s4 := { s3 with
      currentTrack := some track,
      currentOffset := start,
      crossfadePending := false,
      history := historyPush s3.history track }
    (updateState s4 "playing" env.posMs,
      [Eff.loadStream env.playbackPath, Eff.playStream fadeInMs, Eff.setVol])
  else
    (updateState s3 "error" env.posMs, [Eff.loadStream env.playbackPath])

/-- `AudioPlayer.load_playlist`: silently returns on an empty playlist,
otherwise installs the track list as the queue, clamps the start index,
and plays the selected track from its persisted position. -/
def loadPlaylist (s : PlayerState) (tracks : List Track) (startIndex : ℤ)
    (env : PlayEnv) : PlayerState × List Eff :=
  if tracks = [] then (s, [])
  else
    let s1 := { s with queue := tracks }
    let idx : ℤ := max (min startIndex ((tracks.length : ℤ) - 1)) 0
    let s2 := { s1 with currentIndex := idx }
    let track := nth tracks idx.toNat
    let lastPosition := s2.trackPositions track.path
    playTrack s2 track lastPosition false env

/-- `AudioPlayer.toggle_play_pause`: no-op when the mixer is not
initialised; pauses a busy device, otherwise unpauses and reports
`"playing"`. -/
def togglePlayPause (s : PlayerState) (busy : Bool) (posMs : ℚ) :
    PlayerState × List Eff :=
  if ¬s.mixerInit then (s, [])
  else if busy then (updateState s "paused" posMs, [Eff.pauseMusic])
  else (updateState s "playing" posMs, [Eff.unpauseMusic])

/-- `AudioPlayer.stop`: no-op when the mixer is not initialised; otherwise
stops the music, clears the current track and loaded path, and reports
`"stopped"`. -/
def stop (s : PlayerState) : PlayerState × List Eff :=
  if ¬s.mixerInit then (s, [])
  else
    let s1 := { s with currentTrack := none, activeAudioPath := none }
    (updateState s1 "stopped" 0, [Eff.stopMusic])

/-- `AudioPlayer.next_track`.  `randIdx` stands for
`random.randint(0, len(queue) - 1)` when shuffle is on. -/
def nextTrack (s : PlayerState) (randIdx : ℕ) (env : PlayEnv) :
    PlayerState × List Eff :=
  if s.queue = [] then (s, [])
  else if s.playback.shuffleEnabled then
    let s1 := { s with currentIndex := (randIdx : ℤ) }
    playTrack s1 (nth s1.queue randIdx) 0 false env
  else
    let s1 := { s with currentIndex := s.currentIndex + 1 }
    if (s1.queue.length : ℤ) ≤ s1.currentIndex then
      if s1.playback.repeatMode = "all" then
        let s2 := { s1 with currentIndex := 0 }
        playTrack s2 (nth s2.queue 0) 0 false env
      else stop s1
    else playTrack s1 (nth s1.queue s1.currentIndex.toNat) 0 false env

/-- The linear (non-shuffle-history) branch of
`AudioPlayer.previous_track`: decrement, wrapping to the last index under
repeat-all and clamping at 0 otherwise. -/
def prevLinear (s : PlayerState) (env : PlayEnv) : PlayerState × List Eff :=
  let idx0 := s.currentIndex - 1
  let idx :=
    if idx0 < 0 then
      if s.playback.repeatMode = "all" then (s.queue.length : ℤ) - 1 else 0
    else idx0
  let s1 := { s with currentIndex := idx }
  playTrack s1 (nth s1.queue idx.toNat) 0 false env

/-- `AudioPlayer.previous_track`: with shuffle on and a non-empty history,
pop the current entry; if another entry remains beneath it, pop and play
that one, otherwise fall back to linear navigation. -/
def previousTrack (s : PlayerState) (env : PlayEnv) : PlayerState × List Eff :=
  if s.queue = [] then (s, [])
  else if s.playback.shuffleEnabled ∧ s.history ≠ [] then
    let h1 := s.history.dropLast
    match h1.getLast? with
    | some track => playTrack { s with history := h1.dropLast } track 0 false env
    | none => prevLinear { s with history := h1 } env
  else prevLinear s env

/-- Insertion with Python `list.insert` semantics (index clamped into
range, appending when past the end). -/
def insertAt (q : List Track) (i : ℕ) (t : Track) : List Track :=
  q.take i ++ [t] ++ q.drop i

/-- `AudioPlayer.enqueue_next`: dedupe, insert after the current index
(or at the front), and start playback when nothing was current. -/
def enqueueNext (s : PlayerState) (track : Track) (env : PlayEnv) :
    PlayerState × List Eff :=
  let q1 := s.queue.erase track
  let insertIdx : ℤ := if 0 ≤ s.currentIndex then s.currentIndex + 1 else 0
  let s1 := { s with queue := insertAt q1 insertIdx.toNat track }
  if s1.currentIndex = -1 then
    playTrack { s1 with currentIndex := 0 } track 0 false env
  else (s1, [])

/-- `AudioPlayer.append_to_queue`: dedupe then append at the tail. -/
def appendToQueue (s : PlayerState) (track : Track) : PlayerState :=
  { s with queue := s.queue.erase track ++ [track] }

/-- The next-track selection of `_handle_crossfade`: a random index under
shuffle, otherwise the linear successor, wrapping to 0 under repeat-all
and yielding `none` (no handoff) past the end of the queue. -/
def crossfadeNextIndex (s : PlayerState) (randIdx : ℕ) : Option ℤ :=
  if s.playback.shuffleEnabled then some (randIdx : ℤ)
  else if (s.queue.length : ℤ) ≤ s.currentIndex + 1 then
    if s.playback.repeatMode = "all" then some 0 else none
  else some (s.currentIndex + 1)

/-- `AudioPlayer._handle_crossfade`.  The pending flag has already been
set by `_poll`; repeat-one suppresses the handoff entirely; otherwise the
fade-out of the old stream is issued *before* the fallible load/play of
the next one. -/
def handleCrossfade (s : PlayerState) (randIdx : ℕ) (env : PlayEnv) :
    PlayerState × List Eff :=
  if s.playback.repeatMode = "one" then (s, [])
  else
    match crossfadeNextIndex s randIdx with
    | none => (s, [])
    | some nIdx =>
        let nt := nth s.queue nIdx.toNat
        let fadeMs := pyInt (s.playback.crossfadeSeconds * 1000)
        let s1 := { s with activeAudioPath := some env.playbackPath }
        if env.loadOk then
          ({ s1 with
              currentOffset := 0,
              currentTrack := some nt,
              currentIndex := nIdx,
              history := historyPush s1.history nt,
              crossfadePending := false },
            [Eff.fadeOut fadeMs, Eff.loadStream env.playbackPath,
             Eff.playStream fadeMs, Eff.setVol])
        else
          ({ s1 with crossfadePending := false },
            [Eff.fadeOut fadeMs, Eff.loadStream env.playbackPath])

/-- `AudioPlayer._poll`, the 250 ms tick: while busy it persists the
position and may trigger the crossfade handoff; when idle (and not
paused) it restarts the track under repeat-one or advances to the next
track. -/
def poll (s : PlayerState) (env : PollEnv) : PlayerState × List Eff :=
  if ¬s.mixerInit then (s, [])
  else
    match s.currentTrack with
    | none => (s, [])
    | some t =>
        let currentPos := s.currentOffset + env.posMs / 1000
        if env.busy then
          let duration := max t.metadata.durationSeconds currentPos
          let s1 :=
            { s with trackPositions := setPos s.trackPositions t.path currentPos }
          if ¬s1.crossfadePending ∧ 0 < s1.playback.crossfadeSeconds ∧
              duration - currentPos ≤ s1.playback.crossfadeSeconds then
            handleCrossfade { s1 with crossfadePending := true } env.randIdx env.penv
          else (s1, [])
        else if s.state = "paused" then (s, [])
        else if s.playback.repeatMode = "one" then
          playTrack s t 0 true env.penv
        else nextTrack s env.randIdx env.penv

/-- The state `AudioPlayer.__init__` leaves behind (empty queue, no
current track, mixer initialised, stopped). -/
def initialState (ps : PlaybackState) : PlayerState :=
  { queue := [],
    history := [],
    currentIndex := -1,
    currentTrack := none,
    currentOffset := 0,
    activeAudioPath := none,
    crossfadePending := false,
    state := "stopped",
    mixerInit := true,
    trackPositions := fun _ => 0,
    playback := ps }

/-- `AudioPlayer._set_mixer_volume`: the volume handed to the device is
clamped into `[0, 1]`. -/
noncomputable def setMixerVolume (v : ℝ) : ℝ :=
  max 0 (min v 1)

/-- `AudioPlayer._compute_normalized_volume`: mute zeroes the base volume;
when normalization is on and the track's gain is nonzero the base is
scaled by `10 ^ (gainDb / 20)` and clamped into `[0, 1]`. -/
noncomputable def computeNormalizedVolume (ps : PlaybackState) (t : Track) : ℝ :=
  let base : ℝ := if ps.isMuted then 0 else (ps.volume : ℝ)
  if ps.normalizationEnabled = false ∨ t.normalizedGainDb = 0 then base
  else max 0 (min (base * (10 : ℝ) ^ ((t.normalizedGainDb : ℝ) / 20)) 1)

/-- The effective volume a track change applies to the device:
`_set_mixer_volume(_compute_normalized_volume(track))`
(`play_track`, lines 82–83). -/
noncomputable def appliedVolume (ps : PlaybackState) (t : Track) : ℝ :=
  setMixerVolume (computeNormalizedVolume ps t)

/-- The spec's volume normalization formula, written from its words:
effective volume = `mute ? 0 : baseVolume`, multiplied by
`10^(gainDb/20)` when normalization is enabled and the gain is nonzero,
the result clamped to `[0, 1]`. -/
noncomputable def specEffectiveVolume (ps : PlaybackState) (t : Track) : ℝ :=
  let base : ℝ := if ps.isMuted then 0 else (ps.volume : ℝ)
  let v :=
    if ps.normalizationEnabled = true ∧ t.normalizedGainDb ≠ 0 then
      base * (10 : ℝ) ^ ((t.normalizedGainDb : ℝ) / 20)
    else base
  max 0 (min v 1)

/-- The preset table of `EqualizerEngine.__init__`. -/
def presetNames : List String :=
  ["Flat", "Bass Boost", "Treble Boost", "Vocal", "Soft"]

/-- Filesystem/processing environment of one `prepare_track` call:
whether a cached artifact exists, whether it is at least as fresh as the
source, and whether decoding/exporting succeeds. -/
structure EqEnv where
  cachedExists : Bool
  cachedFresh : Bool
  processOk : Bool
deriving Repr

/-- Stands for `self._cache_dir / self._cache_key(source, preset)`; the
claims only need that this is the returned cache location. -/
def cachePath (source preset : String) : String :=
  "eq-cache/" ++ source ++ "::" ++ preset

/-- `EqualizerEngine.prepare_track`: unknown presets degrade to `"Flat"`;
the identity preset returns the source unchanged; a fresh cached artifact
is reused; otherwise the track is processed, and any processing failure
falls back to the unmodified source path. -/
def prepareTrack (source : String) (preset : String) (env : EqEnv) : String :=
  let p := if preset ∈ presetNames then preset else "Flat"
  if p = "Flat" then source
  else if env.cachedExists ∧ env.cachedFresh then cachePath source p
  else if env.processOk then cachePath source p
  else source

/-- The spec's queue/current-track invariant: a valid current index points
at the current track. -/
def currentConsistent (s : PlayerState) : Prop :=
  0 ≤ s.currentIndex ∧ s.currentIndex < (s.queue.length : ℤ) ∧
  s.currentTrack = some (nth s.queue s.currentIndex.toNat)

instance (s : PlayerState) : Decidable (currentConsistent s) := by
  unfold currentConsistent; infer_instance

/-- States reachable from a fresh `AudioPlayer` through its public
operations, the periodic tick, and the playback-settings setters (which
only replace the cached playback state), under arbitrary environments. -/
inductive Reachable : PlayerState → Prop where
  | start (ps : PlaybackState) : Reachable (initialState ps)
  | load (s tracks i env) : Reachable s → Reachable (loadPlaylist s tracks i env).1
  | play (s t p fr env) : Reachable s → Reachable (playTrack s t p fr env).1
  | toggle (s busy pos) : Reachable s → Reachable (togglePlayPause s busy pos).1
  | halt (s) : Reachable s → Reachable (stop s).1
  | step (s r env) : Reachable s → Reachable (nextTrack s r env).1
  | back (s env) : Reachable s → Reachable (previousTrack s env).1
  | enqueue (s t env) : Reachable s → Reachable (enqueueNext s t env).1
  | append (s t) : Reachable s → Reachable (appendToQueue s t)
  | tick (s env) : Reachable s → Reachable (poll s env).1
  | settings (s ps) : Reachable s → Reachable { s with playback := ps }

/-- Sample tracks and states used in the concrete counterexamples and
witnesses below. -/
def tA : Track := ⟨"a.mp3", ⟨"A", "", "", 60⟩, 0⟩

def tB : Track := ⟨"b.mp3", ⟨"B", "", "", 60⟩, 0⟩

def tC : Track := ⟨"c.mp3", ⟨"C", "", "", 60⟩, 0⟩

/-- A track with the same path as `tA` but different metadata: under the
dataclass equality of `TrackItem` these are different values. -/
def tA2 : Track := ⟨"a.mp3", ⟨"A2", "", "", 61⟩, 0⟩

def ps0 : PlaybackState := ⟨4/5, false, false, "off", 3, true, "Flat"⟩

def psShuffle : PlaybackState := ⟨4/5, false, true, "off", 3, true, "Flat"⟩

def env0 : PlayEnv := ⟨"a.mp3", true, 0⟩

def envFail : PlayEnv := ⟨"b.mp3", false, 0⟩

/-- State after loading the playlist `[tA, tB]` at index 0. -/
def sAB : PlayerState := (loadPlaylist (initialState ps0) [tA, tB] 0 env0).1

/-- A playing state mid-`tA` with a crossfade pending, as `_poll` leaves
it just before calling `_handle_crossfade`. -/
def sCross : PlayerState :=
  { initialState ps0 with
      queue := [tA, tB], history := [tA], currentIndex := 0,
      currentTrack := some tA, currentOffset := 50,
      state := "playing", crossfadePending := true }

/-- A shuffle-mode playing state whose history is `[tA, tB, tC]` with
`tC` current. -/
def sHist : PlayerState :=
  { initialState psShuffle with
      queue := [tA, tB, tC], history := [tA, tB, tC],
      currentIndex := 2, currentTrack := some tC, state := "playing" }

/-- Like `sCross` but with repeat-one active. -/
def sCrossOne : PlayerState :=
  { sCross with playback := { ps0 with repeatMode := "one" } }

/-- A state whose mixer is not initialised. -/
def sNoMixer : PlayerState := { initialState ps0 with mixerInit := false }

/-- A busy-device tick environment. -/
def pe0 : PollEnv := ⟨true, 0, 0, env0⟩

/-- An equalizer environment with no usable cache and failing processing. -/
def eqFailEnv : EqEnv := ⟨false, false, false⟩

/-- A track with a −6 dB normalization gain hint. -/
def tGainNeg : Track := ⟨"g.mp3", ⟨"G", "", "", 60⟩, -6⟩

/-- A track with a +40 dB normalization gain hint. -/
def tGainBig : Track := ⟨"h.mp3", ⟨"H", "", "", 60⟩, 40⟩

/-- The history invariant of the spec's data model, at the record level:
bounded by the deque capacity and duplicate-free. -/
def histInv (s : PlayerState) : Prop :=
  s.history.length ≤ 50 ∧ s.history.Nodup

/-!  Projection lemmas for `updateState`: it only touches the transport
state string and the persisted position map. -/

@[simp] theorem updateState_queue (s : PlayerState) (st : String) (pos : ℚ) :
    (updateState s st pos).queue = s.queue := by
  unfold updateState; cases s.currentTrack <;> dsimp only <;> split <;> rfl

@[simp] theorem updateState_history (s : PlayerState) (st : String) (pos : ℚ) :
    (updateState s st pos).history = s.history := by
  unfold updateState; cases s.currentTrack <;> dsimp only <;> split <;> rfl

@[simp] theorem updateState_currentIndex (s : PlayerState) (st : String) (pos : ℚ) :
    (updateState s st pos).currentIndex = s.currentIndex := by
  unfold updateState; cases s.currentTrack <;> dsimp only <;> split <;> rfl

@[simp] theorem updateState_currentTrack (s : PlayerState) (st : String) (pos : ℚ) :
    (updateState s st pos).currentTrack = s.currentTrack := by
  unfold updateState; cases s.currentTrack <;> dsimp only <;> split <;> rfl

@[simp] theorem updateState_currentOffset (s : PlayerState) (st : String) (pos : ℚ) :
    (updateState s st pos).currentOffset = s.currentOffset := by
  unfold updateState; cases s.currentTrack <;> dsimp only <;> split <;> rfl

@[simp] theorem updateState_activeAudioPath (s : PlayerState) (st : String) (pos : ℚ) :
    (updateState s st pos).activeAudioPath = s.activeAudioPath := by
  unfold updateState; cases s.currentTrack <;> dsimp only <;> split <;> rfl

@[simp] theorem updateState_crossfadePending (s : PlayerState) (st : String) (pos : ℚ) :
    (updateState s st pos).crossfadePending = s.crossfadePending := by
  unfold updateState; cases s.currentTrack <;> dsimp only <;> split <;> rfl

@[simp] theorem updateState_mixerInit (s : PlayerState) (st : String) (pos : ℚ) :
    (updateState s st pos).mixerInit = s.mixerInit := by
  unfold updateState; cases s.currentTrack <;> dsimp only <;> split <;> rfl

@[simp] theorem updateState_playback (s : PlayerState) (st : String) (pos : ℚ) :
    (updateState s st pos).playback = s.playback := by
  unfold updateState; cases s.currentTrack <;> dsimp only <;> split <;> rfl

@[simp] theorem updateState_state (s : PlayerState) (st : String) (pos : ℚ) :
    (updateState s st pos).state = st := by
  unfold updateState; cases s.currentTrack <;> dsimp only <;> split <;> rfl

/-!  Shape lemmas for `playTrack`. -/

/-- On device success, `play_track` ends in the state obtained from the
queue bookkeeping by installing the new current track, offset, history
entry and `"playing"` state. -/
theorem playTrack_ok (s : PlayerState) (t : Track) (p : ℚ) (fr : Bool)
    (env : PlayEnv) (h : env.loadOk = true) :
    playTrack s t p fr env =
      (updateState
        { enqueueCurrent { s with mixerInit := true } t with
            activeAudioPath := some env.playbackPath,
            trackPositions :=
              if fr then setPos s.trackPositions t.path 0 else s.trackPositions,
            currentTrack := some t,
            currentOffset := resolveStart s.trackPositions t p fr,
            crossfadePending := false,
            history := historyPush s.history t } "playing" env.posMs,
       [Eff.loadStream env.playbackPath,
        Eff.playStream (pyInt (max (s.playback.crossfadeSeconds - 1/2) 0 * 1000)),
        Eff.setVol]) := by
  by_cases hm : t ∈ s.queue <;> by_cases hf : fr <;>
    simp [playTrack, enqueueCurrent, h, hm, hf]

/-- On device failure, `play_track` leaves the state produced by the
queue bookkeeping, records the attempted stream path, and reports
`"error"`; current track, offset and history are untouched. -/
theorem playTrack_fail (s : PlayerState) (t : Track) (p : ℚ) (fr : Bool)
    (env : PlayEnv) (h : env.loadOk = false) :
    playTrack s t p fr env =
      (updateState
        { enqueueCurrent { s with mixerInit := true } t with
            activeAudioPath := some env.playbackPath,
            trackPositions :=
              if fr then setPos s.trackPositions t.path 0 else s.trackPositions }
        "error" env.posMs,
       [Eff.loadStream env.playbackPath]) := by
  by_cases hm : t ∈ s.queue <;> by_cases hf : fr <;>
    simp [playTrack, enqueueCurrent, h, hm, hf]

theorem nth_eq_getElem (q : List Track) (i : ℕ) (h : i < q.length) :
    nth q i = q[i] :=
  List.getD_eq_getElem q _ h

theorem nth_append_length (q : List Track) (t : Track) :
    nth (q ++ [t]) q.length = t := by
  unfold nth
  rw [List.getD_append_right _ _ _ _ le_rfl, Nat.sub_self]
  rfl

/-- The queue bookkeeping of `play_track` always leaves a valid index
pointing at the requested track. -/
theorem enqueueCurrent_consistent (s : PlayerState) (t : Track) :
    0 ≤ (enqueueCurrent s t).currentIndex ∧
    (enqueueCurrent s t).currentIndex < ((enqueueCurrent s t).queue.length : ℤ) ∧
    nth (enqueueCurrent s t).queue (enqueueCurrent s t).currentIndex.toNat = t := by
  by_cases hm : t ∈ s.queue
  · have hlt : s.queue.indexOf t < s.queue.length := List.indexOf_lt_length.2 hm
    refine ⟨by simp [enqueueCurrent, hm], ?_, ?_⟩
    · simpa [enqueueCurrent, hm] using hlt
    · simp only [enqueueCurrent, hm, if_true]
      rw [nth_eq_getElem _ _ (by simpa using hlt)]
      simpa using List.getElem_indexOf hlt
  · refine ⟨by simp [enqueueCurrent, hm], ?_, ?_⟩
    · simp [enqueueCurrent, hm]
    · simp only [enqueueCurrent, hm, if_false]
      simpa using nth_append_length s.queue t

/-- On device success, `play_track` establishes the queue/current-track
invariant outright. -/
theorem playTrack_ok_consistent (s : PlayerState) (t : Track) (p : ℚ)
    (fr : Bool) (env : PlayEnv) (h : env.loadOk = true) :
    currentConsistent (playTrack s t p fr env).1 := by
  rw [playTrack_ok s t p fr env h]
  unfold currentConsistent
  simp only [updateState_queue, updateState_currentIndex, updateState_currentTrack]
  obtain ⟨h1, h2, h3⟩ := enqueueCurrent_consistent { s with mixerInit := true } t
  exact ⟨h1, h2, by rw [h3]⟩

theorem loadPlaylist_consistent (s : PlayerState) (tracks : List Track)
    (i : ℤ) (env : PlayEnv) (hne : tracks ≠ []) (h : env.loadOk = true) :
    currentConsistent (loadPlaylist s tracks i env).1 := by
  unfold loadPlaylist
  rw [if_neg hne]
  exact playTrack_ok_consistent _ _ _ _ _ h

theorem nextTrack_consistent (s : PlayerState) (r : ℕ) (env : PlayEnv)
    (h : env.loadOk = true) (hq : s.queue ≠ [])
    (hprog : s.playback.shuffleEnabled = true ∨
      s.currentIndex + 1 < (s.queue.length : ℤ) ∨
      s.playback.repeatMode = "all") :
    currentConsistent (nextTrack s r env).1 := by
  unfold nextTrack
  rw [if_neg hq]
  by_cases hs : s.playback.shuffleEnabled
  · rw [if_pos hs]
    exact playTrack_ok_consistent _ _ _ _ _ h
  · rw [if_neg hs]
    dsimp only
    split_ifs with h1 h2
    · exact playTrack_ok_consistent _ _ _ _ _ h
    · rcases hprog with hp | hp | hp
      · exact absurd hp (by simpa using hs)
      · exact absurd h1 (by simpa using not_le.2 hp)
      · exact absurd hp h2
    · exact playTrack_ok_consistent _ _ _ _ _ h

theorem previousTrack_consistent (s : PlayerState) (env : PlayEnv)
    (h : env.loadOk = true) (hq : s.queue ≠ []) :
    currentConsistent (previousTrack s env).1 := by
  unfold previousTrack
  rw [if_neg hq]
  split_ifs with hs
  · cases hL : s.history.dropLast.getLast? with
    | some t =>
        simp only [hL]
        exact playTrack_ok_consistent _ _ _ _ _ h
    | none =>
        simp only [hL]
        unfold prevLinear
        exact playTrack_ok_consistent _ _ _ _ _ h
  · unfold prevLinear
    exact playTrack_ok_consistent _ _ _ _ _ h

theorem handleCrossfade_consistent (s : PlayerState) (r : ℕ) (env : PlayEnv)
    (n : ℤ) (hOne : s.playback.repeatMode ≠ "one")
    (hn : crossfadeNextIndex s r = some n) (h0 : 0 ≤ n)
    (hlen : n < (s.queue.length : ℤ)) (h : env.loadOk = true) :
    currentConsistent (handleCrossfade s r env).1 := by
  unfold handleCrossfade
  rw [if_neg hOne, hn]
  dsimp only
  rw [if_pos h]
  exact ⟨h0, hlen, rfl⟩

theorem enqueueNext_fresh_consistent (s : PlayerState) (t : Track)
    (env : PlayEnv) (hc : currentConsistent s) (hm : t ∉ s.queue) :
    currentConsistent (enqueueNext s t env).1 := by
  obtain ⟨h0, hlt, htrk⟩ := hc
  have hne : s.currentIndex ≠ -1 := by omega
  unfold enqueueNext
  rw [List.erase_of_not_mem hm]
  dsimp only
  rw [if_neg hne, if_pos h0]
  refine ⟨h0, ?_, ?_⟩
  · simp only [insertAt]
    simp only [List.length_append, List.length_take, List.length_drop,
      List.length_cons, List.length_nil]
    omega
  · rw [htrk]
    congr 1
    have hidx : s.currentIndex.toNat < (s.currentIndex + 1).toNat := by omega
    have htake : s.currentIndex.toNat < (s.queue.take (s.currentIndex + 1).toNat).length := by
      simp only [List.length_take]
      omega
    unfold insertAt nth
    rw [List.append_assoc, List.getD_append _ _ _ _ htake,
      List.getD_eq_getElem _ _ htake, List.getElem_take,
      List.getD_eq_getElem _ _ (by omega)]

theorem appendToQueue_fresh_consistent (s : PlayerState) (t : Track)
    (hc : currentConsistent s) (hm : t ∉ s.queue) :
    currentConsistent (appendToQueue s t) := by
  obtain ⟨h0, hlt, htrk⟩ := hc
  unfold appendToQueue
  rw [List.erase_of_not_mem hm]
  refine ⟨h0, ?_, ?_⟩
  · show s.currentIndex < ((s.queue ++ [t]).length : ℤ)
    simp only [List.length_append, List.length_cons, List.length_nil]
    omega
  · show s.currentTrack = some (nth (s.queue ++ [t]) s.currentIndex.toNat)
    rw [htrk]
    congr 1
    unfold nth
    rw [List.getD_append _ _ _ _ (by omega)]

theorem enqueueNext_idle_consistent (s : PlayerState) (t : Track)
    (env : PlayEnv) (hidle : s.currentIndex = -1) (h : env.loadOk = true) :
    currentConsistent (enqueueNext s t env).1 := by
  unfold enqueueNext
  dsimp only
  rw [if_pos hidle]
  exact playTrack_ok_consistent _ _ _ _ _ h

/-- C1 counterexample: in the reachable state after loading `[tA, tB]` at
index 0 the invariant holds, yet `append_to_queue(tA)` (dedupe of an
already-queued track at a position not after the current index) moves the
queue under the unchanged current index and breaks it: the queue becomes
`[tB, tA]` while the index stays 0 and the current track stays `tA`. -/
theorem claim1_counterexample :
    currentConsistent sAB ∧ ¬currentConsistent (appendToQueue sAB tA) := by
  decide

/-- C1 (amended): the current-index/current-track invariant is
(re)established by every operation that actually starts a track on a
successful device load — `play_track` (hence also `seek` and the
preset reload), `load_playlist` on a non-empty playlist, `next_track`
when it does not stop at the end of the queue, `previous_track` on a
non-empty queue, the crossfade handoff when it selects an in-range next
index, and `enqueue_next` from the idle state — and it is preserved by
`enqueue_next`/`append_to_queue` for a track not already in the queue.
(It is not preserved when those two dedupe an already-queued track at or
before the current index, nor by a failed device load, nor by `stop`,
which clears the track but not the index.) -/
theorem claim1_queue_invariant :
    (∀ s t p fr env, env.loadOk = true →
      currentConsistent (playTrack s t p fr env).1) ∧
    (∀ s tracks i env, tracks ≠ [] → env.loadOk = true →
      currentConsistent (loadPlaylist s tracks i env).1) ∧
    (∀ s r env, env.loadOk = true → s.queue ≠ [] →
      (s.playback.shuffleEnabled = true ∨
        s.currentIndex + 1 < (s.queue.length : ℤ) ∨
        s.playback.repeatMode = "all") →
      currentConsistent (nextTrack s r env).1) ∧
    (∀ s env, env.loadOk = true → s.queue ≠ [] →
      currentConsistent (previousTrack s env).1) ∧
    (∀ s r env n, s.playback.repeatMode ≠ "one" →
      crossfadeNextIndex s r = some n → 0 ≤ n → n < (s.queue.length : ℤ) →
      env.loadOk = true → currentConsistent (handleCrossfade s r env).1) ∧
    (∀ s t env, s.currentIndex = -1 → env.loadOk = true →
      currentConsistent (enqueueNext s t env).1) ∧
    (∀ s t env, currentConsistent s → t ∉ s.queue →
      currentConsistent (enqueueNext s t env).1) ∧
    (∀ s t, currentConsistent s → t ∉ s.queue →
      currentConsistent (appendToQueue s t)) :=
  ⟨fun s t p fr env h => playTrack_ok_consistent s t p fr env h,
   fun s tracks i env hne h => loadPlaylist_consistent s tracks i env hne h,
   fun s r env h hq hp => nextTrack_consistent s r env h hq hp,
   fun s env h hq => previousTrack_consistent s env h hq,
   fun s r env n h1 h2 h3 h4 h5 => handleCrossfade_consistent s r env n h1 h2 h3 h4 h5,
   fun s t env hi h => enqueueNext_idle_consistent s t env hi h,
   fun s t env hc hm => enqueueNext_fresh_consistent s t env hc hm,
   fun s t hc hm => appendToQueue_fresh_consistent s t hc hm⟩

/-- C1 witness: the amended invariant theorem instantiated at concrete
states for each operation. -/
theorem claim1_witness :
    currentConsistent (playTrack (initialState ps0) tA 0 false env0).1 ∧
    currentConsistent (loadPlaylist (initialState ps0) [tA, tB] 0 env0).1 ∧
    currentConsistent (nextTrack sAB 0 env0).1 ∧
    currentConsistent (previousTrack sHist env0).1 ∧
    currentConsistent (handleCrossfade sCross 0 env0).1 ∧
    currentConsistent (enqueueNext (initialState ps0) tA env0).1 ∧
    currentConsistent (enqueueNext sAB tC env0).1 ∧
    currentConsistent (appendToQueue sAB tC) :=
  ⟨claim1_queue_invariant.1 (initialState ps0) tA 0 false env0 rfl,
   claim1_queue_invariant.2.1 (initialState ps0) [tA, tB] 0 env0 (by decide) rfl,
   claim1_queue_invariant.2.2.1 sAB 0 env0 rfl (by decide)
     (Or.inr (Or.inl (by decide))),
   claim1_queue_invariant.2.2.2.1 sHist env0 rfl (by decide),
   claim1_queue_invariant.2.2.2.2.1 sCross 0 env0 1 (by decide) (by decide)
     (by decide) (by decide) rfl,
   claim1_queue_invariant.2.2.2.2.2.1 (initialState ps0) tA env0 rfl rfl,
   claim1_queue_invariant.2.2.2.2.2.2.1 sAB tC env0 (by decide) (by decide),
   claim1_queue_invariant.2.2.2.2.2.2.2 sAB tC (by decide) (by decide)⟩

/-- C2 counterexample: on a handoff whose device load fails, the fade-out
of the old stream *has* been issued (first command in the effect list),
contradicting "no fade-out applied to it"; the pending flag is cleared. -/
theorem claim2_counterexample :
    (handleCrossfade sCross 0 envFail).2 =
      [Eff.fadeOut 3000, Eff.loadStream "b.mp3"] ∧
    (handleCrossfade sCross 0 envFail).1.crossfadePending = false := by
  constructor
  · norm_num +decide [handleCrossfade, crossfadeNextIndex, sCross, envFail,
      initialState, ps0, pyInt, nth]
  · decide

/-- C2 (amended): a crossfade handoff whose device load/play fails clears
the pending flag and leaves the current track, offset, index, history,
queue and transport state unchanged — but the fade-out of the old stream
(and the active-path bookkeeping) has already been issued before the
failing load, so the old stream fades out over `crossfadeSeconds` and is
then advanced by the regular end-of-track path once it goes idle. -/
theorem claim2_crossfade_failure (s : PlayerState) (r : ℕ) (env : PlayEnv)
    (n : ℤ) (h : env.loadOk = false) (hOne : s.playback.repeatMode ≠ "one")
    (hn : crossfadeNextIndex s r = some n) :
    handleCrossfade s r env =
      ({ s with crossfadePending := false,
                activeAudioPath := some env.playbackPath },
       [Eff.fadeOut (pyInt (s.playback.crossfadeSeconds * 1000)),
        Eff.loadStream env.playbackPath]) := by
  unfold handleCrossfade
  rw [if_neg hOne, hn]
  dsimp only
  rw [if_neg (by simp [h])]

/-- C2 witness: the failure shape instantiated at a concrete pending
handoff with a failing device. -/
theorem claim2_witness :
    handleCrossfade sCross 0 envFail =
      ({ sCross with crossfadePending := false,
                     activeAudioPath := some envFail.playbackPath },
       [Eff.fadeOut (pyInt (sCross.playback.crossfadeSeconds * 1000)),
        Eff.loadStream envFail.playbackPath]) :=
  claim2_crossfade_failure sCross 0 envFail 1 rfl (by decide) (by decide)

theorem handleCrossfade_repeat_one (s : PlayerState) (r : ℕ) (env : PlayEnv)
    (h : s.playback.repeatMode = "one") : handleCrossfade s r env = (s, []) := by
  unfold handleCrossfade
  rw [if_pos h]

theorem poll_busy_repeat_one (s : PlayerState) (env : PollEnv)
    (h : s.playback.repeatMode = "one") (hb : env.busy = true) :
    (poll s env).2 = [] := by
  unfold poll
  by_cases h1 : s.mixerInit = true
  · rw [if_neg (by simp [h1])]
    cases hc : s.currentTrack with
    | none => simp [hc]
    | some t =>
        simp only [hc, hb]
        rw [if_pos trivial]
        split_ifs with h2
        · rw [handleCrossfade_repeat_one _ _ _ (by exact h)]
        · rfl
  · rw [if_pos (by simp [h1])]

/-- C5: with repeat mode "one", the crossfade path never issues any
device command — `_handle_crossfade` returns the state untouched with no
effects, and a busy tick therefore issues no device command at all —
regardless of `crossfadeSeconds`. -/
theorem claim5_repeat_one_no_crossfade :
    (∀ s r env, s.playback.repeatMode = "one" →
      handleCrossfade s r env = (s, [])) ∧
    (∀ s env, s.playback.repeatMode = "one" → env.busy = true →
      (poll s env).2 = []) :=
  ⟨fun s r env h => handleCrossfade_repeat_one s r env h,
   fun s env h hb => poll_busy_repeat_one s env h hb⟩

/-- C5 witness: at a concrete repeat-one state on the crossfade boundary,
the handoff is a no-op and the busy tick issues no device command. -/
theorem claim5_witness :
    handleCrossfade sCrossOne 0 env0 = (sCrossOne, []) ∧
    (poll sCrossOne pe0).2 = [] :=
  ⟨claim5_repeat_one_no_crossfade.1 sCrossOne 0 env0 rfl,
   claim5_repeat_one_no_crossfade.2 sCrossOne pe0 rfl rfl⟩

/-- C7 counterexample: with the device initialised and idle, toggling
play/pause from the Stopped state is not a no-op — the transport state
becomes `"playing"`. -/
theorem claim7_counterexample :
    (initialState ps0).state = "stopped" ∧
    (togglePlayPause (initialState ps0) false 0).1.state = "playing" := by
  decide

/-- C7 (amended): `toggle_play_pause` is a no-op when the device is
uninitialised and pauses a busy (playing) device; but when the device is
idle — including the Stopped state — it unpauses and sets the transport
state to `"playing"`, so Stopped is *not* a no-op. -/
theorem claim7_toggle :
    (∀ s busy pos, s.mixerInit = false → togglePlayPause s busy pos = (s, [])) ∧
    (∀ s pos, s.mixerInit = true →
      (togglePlayPause s true pos).1.state = "paused" ∧
      (togglePlayPause s true pos).2 = [Eff.pauseMusic]) ∧
    (∀ s pos, s.mixerInit = true →
      (togglePlayPause s false pos).1.state = "playing" ∧
      (togglePlayPause s false pos).2 = [Eff.unpauseMusic]) := by
  refine ⟨fun s busy pos h => ?_, fun s pos h => ?_, fun s pos h => ?_⟩
  · unfold togglePlayPause
    rw [if_pos (by simp [h])]
  · unfold togglePlayPause
    rw [if_neg (by simp [h])]
    simp
  · unfold togglePlayPause
    rw [if_neg (by simp [h])]
    simp

/-- C7 witness: the toggle behaviour at concrete states. -/
theorem claim7_witness :
    togglePlayPause sNoMixer true 0 = (sNoMixer, []) ∧
    ((togglePlayPause sAB true 0).1.state = "paused" ∧
      (togglePlayPause sAB true 0).2 = [Eff.pauseMusic]) ∧
    ((togglePlayPause sAB false 0).1.state = "playing" ∧
      (togglePlayPause sAB false 0).2 = [Eff.unpauseMusic]) :=
  ⟨claim7_toggle.1 sNoMixer true 0 rfl,
   claim7_toggle.2.1 sAB 0 (by decide),
   claim7_toggle.2.2 sAB 0 (by decide)⟩

theorem stop_shape (s : PlayerState) (h : s.mixerInit = true) :
    stop s = ({ s with currentTrack := none, activeAudioPath := none,
                       state := "stopped" }, [Eff.stopMusic]) := by
  unfold stop updateState
  rw [if_neg (by simp [h])]

theorem playTrack_ok_currentTrack (s : PlayerState) (t : Track) (p : ℚ)
    (fr : Bool) (env : PlayEnv) (h : env.loadOk = true) :
    (playTrack s t p fr env).1.currentTrack = some t := by
  rw [playTrack_ok s t p fr env h]
  simp

/-- C10: `stop` clears exactly the current track, the loaded stream path
and the transport state (set to `"stopped"`), leaving queue, index,
history, offset, pending flag and settings unchanged; a subsequent
`next_track` therefore advances from the pre-stop index, playing
`queue[currentIndex + 1]` rather than the head of the queue. -/
theorem claim10_stop_frame :
    (∀ s, s.mixerInit = true →
      stop s = ({ s with currentTrack := none, activeAudioPath := none,
                         state := "stopped" }, [Eff.stopMusic])) ∧
    (∀ s r env, s.mixerInit = true → s.playback.shuffleEnabled = false →
      0 ≤ s.currentIndex → s.currentIndex + 1 < (s.queue.length : ℤ) →
      env.loadOk = true →
      (nextTrack (stop s).1 r env).1.currentTrack =
        some (nth s.queue (s.currentIndex + 1).toNat)) := by
  refine ⟨fun s h => stop_shape s h, fun s r env hm hs h0 hlt h => ?_⟩
  rw [stop_shape s hm]
  unfold nextTrack
  have hq : s.queue ≠ [] := by
    intro hnil
    rw [hnil] at hlt
    simp at hlt
    omega
  rw [if_neg (by simpa using hq)]
  rw [if_neg (by simpa using hs)]
  dsimp only
  rw [if_neg (by simpa using not_le.2 hlt)]
  exact playTrack_ok_currentTrack _ _ _ _ _ h

/-- C10 witness: stopping the loaded `[tA, tB]` state and pressing next
plays `tB` (the pre-stop successor), not `tA`. -/
theorem claim10_witness :
    stop sAB = ({ sAB with currentTrack := none, activeAudioPath := none,
                           state := "stopped" }, [Eff.stopMusic]) ∧
    (nextTrack (stop sAB).1 0 env0).1.currentTrack =
      some (nth sAB.queue (sAB.currentIndex + 1).toNat) :=
  ⟨claim10_stop_frame.1 sAB (by decide),
   claim10_stop_frame.2 sAB 0 env0 (by decide) (by decide) (by decide)
     (by decide) rfl⟩

theorem playTrack_ok_currentOffset (s : PlayerState) (t : Track) (p : ℚ)
    (fr : Bool) (env : PlayEnv) (h : env.loadOk = true) :
    (playTrack s t p fr env).1.currentOffset =
      resolveStart s.trackPositions t p fr := by
  rw [playTrack_ok s t p fr env h]
  simp

theorem playTrack_ok_history (s : PlayerState) (t : Track) (p : ℚ)
    (fr : Bool) (env : PlayEnv) (h : env.loadOk = true) :
    (playTrack s t p fr env).1.history = historyPush s.history t := by
  rw [playTrack_ok s t p fr env h]
  simp

/-- Requesting exactly the persisted position resolves to that position,
whatever its sign. -/
theorem resolveStart_self (pos : String → ℚ) (t : Track) :
    resolveStart pos t (pos t.path) false = pos t.path := by
  unfold resolveStart
  dsimp only
  split_ifs <;> rfl

/-- C3 counterexample: `load_playlist` on an empty track list does not
fail with `EmptyQueueError` (or in any other way) — it silently returns
the state unchanged, issuing no device command and not entering the
error state. -/
theorem claim3_counterexample :
    loadPlaylist (initialState ps0) [] 5 env0 = (initialState ps0, []) ∧
    (loadPlaylist (initialState ps0) [] 5 env0).1.state ≠ "error" :=
  ⟨rfl, by decide⟩

/-- C3 (amended): `loadQueue(tracks, startIndex)` silently returns
without any change when tracks is empty (no `EmptyQueueError` exists in
the code); for every non-empty tracks list and successful device load it
clamps startIndex into range so the current track becomes
`tracks[clamp(startIndex, 0, len−1)]`, and the playback offset is the
persisted per-track position (the map defaults to 0, so an unseen track
starts at 0). -/
theorem claim3_load_playlist :
    (∀ s i env, loadPlaylist s ([] : List Track) i env = (s, [])) ∧
    (∀ s tracks i env, tracks ≠ [] → env.loadOk = true →
      (loadPlaylist s tracks i env).1.currentTrack =
        some (nth tracks (max (min i ((tracks.length : ℤ) - 1)) 0).toNat) ∧
      (loadPlaylist s tracks i env).1.currentOffset =
        s.trackPositions
          (nth tracks (max (min i ((tracks.length : ℤ) - 1)) 0).toNat).path) := by
  constructor
  · intro s i env
    rfl
  · intro s tracks i env hne h
    unfold loadPlaylist
    rw [if_neg hne]
    dsimp only
    constructor
    · exact playTrack_ok_currentTrack _ _ _ _ _ h
    · rw [playTrack_ok_currentOffset _ _ _ _ _ h]
      exact resolveStart_self _ _

/-- C3 witness: loading `[tA, tB]` at the out-of-range index 5 clamps to
index 1 and starts `tB` at offset 0. -/
theorem claim3_witness :
    (loadPlaylist (initialState ps0) [tA, tB] 5 env0).1.currentTrack =
      some (nth [tA, tB] (max (min 5 ((([tA, tB] : List Track).length : ℤ) - 1)) 0).toNat) ∧
    (loadPlaylist (initialState ps0) [tA, tB] 5 env0).1.currentOffset =
      (initialState ps0).trackPositions
        (nth [tA, tB] (max (min 5 ((([tA, tB] : List Track).length : ℤ) - 1)) 0).toNat).path :=
  claim3_load_playlist.2 (initialState ps0) [tA, tB] 5 env0 (by decide) rfl

/-- C4 counterexample: with shuffle on, history `[tA, tB, tC]` and `tC`
current, `previous_track` pops `tC`, pops `tB` and replays it — but the
successful replay re-appends `tB`, so the history ends as `[tA, tB]`,
not `[tA]`. -/
theorem claim4_counterexample :
    (previousTrack sHist env0).1.history = [tA, tB] ∧
    (previousTrack sHist env0).1.history ≠ [tA] := by
  decide

/-- C4 (amended): with shuffle on and history `[A, B, C]` while `C` is
current, `previous()` pops `C`, then pops `B` and plays it; the history
is `[A]` at the moment `B` is started, and the successful replay then
re-appends `B`, leaving the history equal to `[A, B]` afterwards with
`B` current. -/
theorem claim4_previous_shuffle (s : PlayerState) (A B C : Track)
    (env : PlayEnv) (hs : s.playback.shuffleEnabled = true)
    (hh : s.history = [A, B, C]) (hab : A ≠ B) (hq : s.queue ≠ [])
    (h : env.loadOk = true) :
    (previousTrack s env).1.currentTrack = some B ∧
    (previousTrack s env).1.history = [A, B] := by
  unfold previousTrack
  rw [if_neg hq, if_pos ⟨by simp [hs], by simp [hh]⟩]
  simp only [hh]
  dsimp only [List.dropLast, List.getLast?]
  constructor
  · exact playTrack_ok_currentTrack _ _ _ _ _ h
  · rw [playTrack_ok_history _ _ _ _ _ h]
    have he : ([A] : List Track).erase B = [A] :=
      List.erase_of_not_mem (by simp [Ne.symm hab])
    show historyPush [A] B = [A, B]
    unfold historyPush
    dsimp only
    rw [he]
    rfl

/-- C4 witness: the amended statement at the concrete shuffle state. -/
theorem claim4_witness :
    (previousTrack sHist env0).1.currentTrack = some tB ∧
    (previousTrack sHist env0).1.history = [tA, tB] :=
  claim4_previous_shuffle sHist tA tB tC env0 rfl rfl (by decide)
    (by decide) rfl

/-!  History lemmas for C8. -/

theorem historyPush_length_le (h : List Track) (t : Track) :
    (historyPush h t).length ≤ 50 := by
  unfold historyPush
  dsimp only
  rw [List.length_drop]
  omega

theorem historyPush_nodup {h : List Track} (t : Track) (hnd : h.Nodup) :
    (historyPush h t).Nodup := by
  unfold historyPush
  dsimp only
  apply List.Nodup.sublist (List.drop_sublist _ _)
  refine (hnd.erase t).append (List.nodup_singleton t) ?_
  intro x hx hx2
  rw [List.mem_singleton] at hx2
  subst hx2
  exact hnd.not_mem_erase hx

@[simp] theorem enqueueCurrent_history (s : PlayerState) (t : Track) :
    (enqueueCurrent s t).history = s.history := by
  unfold enqueueCurrent; split <;> rfl

theorem playTrack_fail_history (s : PlayerState) (t : Track) (p : ℚ)
    (fr : Bool) (env : PlayEnv) (h : env.loadOk = false) :
    (playTrack s t p fr env).1.history = s.history := by
  rw [playTrack_fail s t p fr env h]
  simp

theorem playTrack_histInv (s : PlayerState) (t : Track) (p : ℚ) (fr : Bool)
    (env : PlayEnv) (hi : histInv s) : histInv (playTrack s t p fr env).1 := by
  by_cases h : env.loadOk = true
  · refine ⟨?_, ?_⟩ <;> rw [playTrack_ok_history _ _ _ _ _ h]
    · exact historyPush_length_le _ _
    · exact historyPush_nodup _ hi.2
  · refine ⟨?_, ?_⟩ <;>
      rw [playTrack_fail_history _ _ _ _ _ (by simpa using h)]
    · exact hi.1
    · exact hi.2

theorem stop_history (s : PlayerState) : (stop s).1.history = s.history := by
  unfold stop
  split_ifs
  · rfl
  · simp

theorem stop_histInv (s : PlayerState) (hi : histInv s) :
    histInv (stop s).1 :=
  ⟨by rw [stop_history]; exact hi.1, by rw [stop_history]; exact hi.2⟩

theorem togglePlayPause_history (s : PlayerState) (busy : Bool) (pos : ℚ) :
    (togglePlayPause s busy pos).1.history = s.history := by
  unfold togglePlayPause
  split_ifs <;> simp

theorem loadPlaylist_histInv (s : PlayerState) (tracks : List Track) (i : ℤ)
    (env : PlayEnv) (hi : histInv s) :
    histInv (loadPlaylist s tracks i env).1 := by
  unfold loadPlaylist
  split_ifs with he
  · exact hi
  · exact playTrack_histInv _ _ _ _ _ hi

theorem nextTrack_histInv (s : PlayerState) (r : ℕ) (env : PlayEnv)
    (hi : histInv s) : histInv (nextTrack s r env).1 := by
  unfold nextTrack
  by_cases hq : s.queue = []
  · rw [if_pos hq]; exact hi
  · rw [if_neg hq]
    by_cases hs : s.playback.shuffleEnabled = true
    · rw [if_pos hs]; exact playTrack_histInv _ _ _ _ _ hi
    · rw [if_neg hs]
      dsimp only
      split_ifs with h1 h2
      · exact playTrack_histInv _ _ _ _ _ hi
      · exact stop_histInv _ hi
      · exact playTrack_histInv _ _ _ _ _ hi

theorem prevLinear_histInv (s : PlayerState) (env : PlayEnv)
    (hi : histInv s) : histInv (prevLinear s env).1 := by
  unfold prevLinear
  exact playTrack_histInv _ _ _ _ _ hi

theorem histInv_dropLast (h : List Track) (hi : h.length ≤ 50 ∧ h.Nodup) :
    h.dropLast.length ≤ 50 ∧ h.dropLast.Nodup :=
  ⟨le_trans (List.dropLast_sublist h).length_le hi.1,
   hi.2.sublist (List.dropLast_sublist h)⟩

theorem previousTrack_histInv (s : PlayerState) (env : PlayEnv)
    (hi : histInv s) : histInv (previousTrack s env).1 := by
  unfold previousTrack
  by_cases hq : s.queue = []
  · rw [if_pos hq]; exact hi
  · rw [if_neg hq]
    split_ifs with hs
    · cases hL : s.history.dropLast.getLast? with
      | some t =>
          simp only [hL]
          exact playTrack_histInv _ _ _ _ _
            (histInv_dropLast _ (histInv_dropLast _ hi))
      | none =>
          simp only [hL]
          exact prevLinear_histInv _ _ (histInv_dropLast _ hi)
    · exact prevLinear_histInv _ _ hi

theorem enqueueNext_histInv (s : PlayerState) (t : Track) (env : PlayEnv)
    (hi : histInv s) : histInv (enqueueNext s t env).1 := by
  unfold enqueueNext
  dsimp only
  by_cases h1 : s.currentIndex = -1
  · rw [if_pos h1]
    exact playTrack_histInv _ _ _ _ _ hi
  · rw [if_neg h1]
    exact hi

theorem appendToQueue_histInv (s : PlayerState) (t : Track)
    (hi : histInv s) : histInv (appendToQueue s t) := hi

theorem handleCrossfade_histInv (s : PlayerState) (r : ℕ) (env : PlayEnv)
    (hi : histInv s) : histInv (handleCrossfade s r env).1 := by
  unfold handleCrossfade
  by_cases h1 : s.playback.repeatMode = "one"
  · rw [if_pos h1]; exact hi
  · rw [if_neg h1]
    cases hn : crossfadeNextIndex s r with
    | none => simp only [hn]; exact hi
    | some n =>
        simp only [hn]
        by_cases h2 : env.loadOk = true
        · rw [if_pos h2]
          exact ⟨historyPush_length_le _ _, historyPush_nodup _ hi.2⟩
        · rw [if_neg h2]; exact hi

theorem poll_histInv (s : PlayerState) (env : PollEnv) (hi : histInv s) :
    histInv (poll s env).1 := by
  unfold poll
  by_cases h1 : s.mixerInit = true
  · rw [if_neg (by simp [h1])]
    cases hc : s.currentTrack with
    | none => simp only [hc]; exact hi
    | some t =>
        simp only [hc]
        by_cases hb : env.busy = true
        · rw [if_pos hb]
          split_ifs with h2
          · exact handleCrossfade_histInv _ _ _ hi
          · exact hi
        · rw [if_neg hb]
          split_ifs with h3 h4
          · exact hi
          · exact playTrack_histInv _ _ _ _ _ hi
          · exact nextTrack_histInv _ _ _ hi
  · rw [if_pos (by simp [h1])]; exact hi

/-- C8 counterexample: from a fresh player, playing `tA` and then a
`TrackItem` with the same path but different metadata leaves both in the
history — the history does contain the same path twice, because the
dataclass equality used by `deque.remove` compares whole records, not
paths. -/
theorem claim8_counterexample :
    ((playTrack (playTrack (initialState ps0) tA 0 false env0).1
        tA2 0 false env0).1.history) = [tA, tA2] ∧
    tA.path = tA2.path ∧ tA ≠ tA2 := by
  decide

/-- C8 (amended): in every reachable state the history holds at most 50
entries and never contains the same track *record* twice; every push of
an already-present record first removes the earlier occurrence and
appends at the tail (most-recent-last), evicting beyond-capacity entries
oldest-first.  Two records sharing a path but differing in metadata are
distinct to the dedupe check and may both appear. -/
theorem claim8_history_invariant :
    (∀ s, Reachable s → s.history.length ≤ 50 ∧ s.history.Nodup) ∧
    (∀ (h : List Track) (t : Track),
      historyPush h t =
        (h.erase t).drop ((h.erase t).length + 1 - 50) ++ [t]) := by
  constructor
  · intro s hr
    induction hr with
    | start ps => exact ⟨by simp [initialState], by simp [initialState]⟩
    | load s tracks i env _ ih => exact loadPlaylist_histInv s tracks i env ih
    | play s t p fr env _ ih => exact playTrack_histInv s t p fr env ih
    | toggle s busy pos _ ih =>
        exact ⟨by rw [togglePlayPause_history]; exact ih.1,
               by rw [togglePlayPause_history]; exact ih.2⟩
    | halt s _ ih => exact stop_histInv s ih
    | step s r env _ ih => exact nextTrack_histInv s r env ih
    | back s env _ ih => exact previousTrack_histInv s env ih
    | enqueue s t env _ ih => exact enqueueNext_histInv s t env ih
    | append s t _ ih => exact appendToQueue_histInv s t ih
    | tick s env _ ih => exact poll_histInv s env ih
    | settings s ps _ ih => exact ih
  · intro h t
    unfold historyPush
    dsimp only
    rw [List.length_append, List.length_cons, List.length_nil,
      List.drop_append_of_le_length (by omega)]

/-- C8 witness: the invariant at the reachable two-step state where `tB`
then `tA` were played, and the push shape on a concrete history. -/
theorem claim8_witness :
    ((playTrack (playTrack (initialState ps0) tB 0 false env0).1
        tA 0 false env0).1.history.length ≤ 50 ∧
      (playTrack (playTrack (initialState ps0) tB 0 false env0).1
        tA 0 false env0).1.history.Nodup) ∧
    historyPush [tA, tB] tA =
      (([tA, tB] : List Track).erase tA).drop
        ((([tA, tB] : List Track).erase tA).length + 1 - 50) ++ [tA] :=
  ⟨claim8_history_invariant.1 _
      (Reachable.play _ tA 0 false env0
        (Reachable.play _ tB 0 false env0 (Reachable.start ps0))),
   claim8_history_invariant.2 [tA, tB] tA⟩

/-- C9: the shaping engine returns the source path for an unknown or
identity preset, and falls back to the source path when processing fails
and no fresh cached artifact exists — shaping never blocks playback. -/
theorem claim9_prepare_fallback :
    (∀ (src preset : String) (env : EqEnv),
      preset ∉ presetNames ∨ preset = "Flat" →
      prepareTrack src preset env = src) ∧
    (∀ (src preset : String) (env : EqEnv), env.processOk = false →
      ¬(env.cachedExists = true ∧ env.cachedFresh = true) →
      prepareTrack src preset env = src) := by
  constructor
  · intro src preset env h
    unfold prepareTrack
    dsimp only
    rcases h with h | h
    · rw [if_neg h, if_pos rfl]
    · subst h
      rw [if_pos (show "Flat" ∈ presetNames by decide), if_pos rfl]
  · intro src preset env h1 h2
    unfold prepareTrack
    dsimp only
    by_cases hm : preset ∈ presetNames
    · rw [if_pos hm]
      by_cases hp : preset = "Flat"
      · rw [if_pos hp]
      · rw [if_neg hp, if_neg h2, if_neg (by simp [h1])]
    · rw [if_neg hm, if_pos rfl]

/-- C9 witness: concrete fallbacks — unknown preset, identity preset, and
a processing failure on a cache miss all return the source path. -/
theorem claim9_witness :
    prepareTrack "song.mp3" "Nonexistent" eqFailEnv = "song.mp3" ∧
    prepareTrack "song.mp3" "Flat" eqFailEnv = "song.mp3" ∧
    prepareTrack "song.mp3" "Bass Boost" eqFailEnv = "song.mp3" :=
  ⟨claim9_prepare_fallback.1 "song.mp3" "Nonexistent" eqFailEnv
      (Or.inl (by decide)),
   claim9_prepare_fallback.1 "song.mp3" "Flat" eqFailEnv (Or.inr rfl),
   claim9_prepare_fallback.2 "song.mp3" "Bass Boost" eqFailEnv rfl
      (by decide)⟩

theorem clamp01_clamp01 (x : ℝ) :
    max 0 (min (max 0 (min x 1)) 1) = max 0 (min x 1) := by
  have h1 : max (0:ℝ) (min x 1) ≤ 1 := max_le (by norm_num) (min_le_right _ _)
  have h0 : (0:ℝ) ≤ max 0 (min x 1) := le_max_left _ _
  rw [min_eq_left h1, max_eq_right h0]

/-- C6: the volume applied to the device on a track change equals the
spec's formula — `mute ? 0 : baseVolume`, times `10^(gainDb/20)` exactly
when normalization is on and the gain is nonzero, clamped into `[0, 1]`
— and concretely: base 0.8 with gain −6 dB gives `0.8 · 10^(−6/20)`,
while gain +40 dB clamps to exactly 1. -/
theorem claim6_normalized_volume :
    (∀ ps t, appliedVolume ps t = specEffectiveVolume ps t) ∧
    appliedVolume ps0 tGainNeg = 0.8 * (10 : ℝ) ^ ((-6 : ℝ) / 20) ∧
    appliedVolume ps0 tGainBig = 1 := by
  refine ⟨fun ps t => ?_, ?_, ?_⟩
  · unfold appliedVolume computeNormalizedVolume setMixerVolume specEffectiveVolume
    dsimp only
    split_ifs <;> first | rfl | exact clamp01_clamp01 _ | simp_all
  · unfold appliedVolume computeNormalizedVolume setMixerVolume
    rw [if_neg (by decide)]
    have hc : ((tGainNeg.normalizedGainDb : ℝ)) / 20 = (-6 : ℝ) / 20 := by
      norm_num [tGainNeg]
    rw [hc]
    have hx0 : (0:ℝ) < (10:ℝ) ^ ((-6:ℝ)/20) := Real.rpow_pos_of_pos (by norm_num) _
    have hx1 : (10:ℝ) ^ ((-6:ℝ)/20) ≤ 1 :=
      Real.rpow_le_one_of_one_le_of_nonpos (by norm_num) (by norm_num)
    have hb : (if ps0.isMuted = true then (0:ℝ) else (ps0.volume : ℝ)) = 0.8 := by
      norm_num [ps0]
    rw [hb]
    have hv0 : (0:ℝ) ≤ 0.8 * (10:ℝ) ^ ((-6:ℝ)/20) := by positivity
    have hv1 : (0.8:ℝ) * (10:ℝ) ^ ((-6:ℝ)/20) ≤ 1 := by nlinarith
    rw [min_eq_left hv1, max_eq_right hv0, min_eq_left hv1, max_eq_right hv0]
  · unfold appliedVolume computeNormalizedVolume setMixerVolume
    rw [if_neg (by decide)]
    have hc : ((tGainBig.normalizedGainDb : ℝ)) / 20 = ((2:ℕ) : ℝ) := by
      norm_num [tGainBig]
    rw [hc, Real.rpow_natCast]
    have hb : (if ps0.isMuted = true then (0:ℝ) else (ps0.volume : ℝ)) = 0.8 := by
      norm_num [ps0]
    rw [hb]
    norm_num

end Localify
